import Mathlib

/-!
Verification of the Linkly click-tracking app's core data logic
(`src/linkly-app.py`): the session cache population, the dense-series
reprojection `preprocess_clicks_data`, and the main-page filter-and-sum
table computation.

Calendar dates are embedded as day ordinals (`Int`): `pd.date_range`
with daily frequency becomes a list of consecutive ordinals, and the
provider's date strings are parsed to ordinals (civil-calendar day
numbering) — by a concrete model of `datetime.strptime(·, "%Y-%m-%d")`
on the main page's path, and by an abstract parser standing for the
version-dependent `pd.to_datetime` on the series path.
Network calls are embedded as `Option`-valued provider responses:
`none` models a raised `requests.exceptions.RequestException`, which the
source catches and converts to an empty list.
-/

namespace Linkly

/-- A parsed traffic point: `t` is the day ordinal of the provider's
`"t"` date field, `y` the click count from the `"y"` field. -/
structure Point where
  t : Int
  y : Nat
deriving DecidableEq

/-- A raw traffic point as stored in `st.session_state.analytics_data`:
the `"t"` date field still an unparsed string. -/
structure RawPoint where
  t : String
  y : Nat
deriving DecidableEq

/-- A tracked link from the provider's export (`id`, `name`, `url`,
lifetime `clicks_count`). -/
structure Link where
  id : Nat
  name : String
  url : String
  clicks_count : Nat
deriving DecidableEq

/-- The `n` consecutive day ordinals starting at `s`. -/
def range_from (s : Int) : Nat → List Int
  | 0 => []
  | n + 1 => s :: range_from (s + 1) n

/-- Models `pd.date_range(start=s, end=e, freq="D")`: the consecutive
day ordinals from `s` to `e` inclusive; empty when `e < s`. -/
def date_range (s e : Int) : List Int :=
  range_from s (e - s + 1).toNat

/-- The rows of `clicks_df` whose `Data` equals `d` (the right-hand
side of the `pd.merge` key match). -/
def col_matches (P : List Point) (d : Int) : List Point :=
  P.filter fun p => p.t == d

/-- One left row of the `pd.merge(full_df, clicks_df, on="Data",
how="left")`: a left key `d` with no right match yields a single row
filled with 0 (`fillna(0)`); a left key with matches yields one output
row per matching right row, in right-table order. -/
def merge_row (P : List Point) (d : Int) : List (Int × Nat) :=
  match col_matches P d with
  | [] => [(d, 0)]
  | ps => ps.map fun p => (d, p.y)

/-- The full left merge: rows for the left keys `ds` in order. -/
def merge_rows (P : List Point) : List Int → List (Int × Nat)
  | [] => []
  | d :: ds => merge_row P d ++ merge_rows P ds

/-- Models `preprocess_clicks_data(clicks_data, start_date, end_date)`
(src/linkly-app.py lines 142-170) on already-parsed points: if the
input is empty, a zero-filled frame over the whole date range;
otherwise the left merge of the full date range with the click rows,
missing values filled with 0. -/
def preprocess_clicks_data (P : List Point) (s e : Int) : List (Int × Nat) :=
  if P.isEmpty then (date_range s e).map fun d => (d, 0)
  else merge_rows P (date_range s e)

/-- Sum of the `Cliques` column of a dense series (the aggregator
`total`). -/
def series_total (L : List (Int × Nat)) : Nat :=
  (L.map Prod.snd).sum

/-- Models the main page's direct computation (src/linkly-app.py lines
96-100): filter the points to the selected window (inclusive on both
ends) and sum their `y` values. -/
def filtered_total (P : List Point) (s e : Int) : Nat :=
  ((P.filter fun p => decide (s ≤ p.t) && decide (p.t ≤ e)).map Point.y).sum

/-- First-match count at date `d` ( the value `DataFrame.lookup`-style
access would see): the count of the first point whose date is `d`,
else 0. -/
def value_at (P : List Point) (d : Int) : Nat :=
  ((P.find? fun p => p.t == d).map Point.y).getD 0

/-! ### Basic lemmas about `date_range` -/

theorem mem_range_from {d s : Int} {n : Nat} :
    d ∈ range_from s n ↔ s ≤ d ∧ d < s + n := by
  induction n generalizing s with
  | zero => simp [range_from]
  | succ m ih =>
    simp only [range_from, List.mem_cons, ih]
    omega

theorem range_from_length (s : Int) (n : Nat) : (range_from s n).length = n := by
  induction n generalizing s with
  | zero => rfl
  | succ m ih => simp [range_from, ih]

theorem range_from_pairwise (s : Int) (n : Nat) :
    (range_from s n).Pairwise (· < ·) := by
  induction n generalizing s with
  | zero => exact List.Pairwise.nil
  | succ m ih =>
    refine List.Pairwise.cons ?_ (ih (s + 1))
    intro d hd
    have := mem_range_from.mp hd
    omega

theorem mem_date_range {s e d : Int} : d ∈ date_range s e ↔ s ≤ d ∧ d ≤ e := by
  unfold date_range
  rw [mem_range_from]
  omega

theorem date_range_length (s e : Int) :
    (date_range s e).length = (e - s + 1).toNat :=
  range_from_length _ _

theorem date_range_pairwise (s e : Int) :
    (date_range s e).Pairwise (· < ·) :=
  range_from_pairwise _ _

theorem date_range_nodup (s e : Int) : (date_range s e).Nodup :=
  (date_range_pairwise s e).imp fun h => ne_of_lt h

theorem date_range_empty_of_lt {s e : Int} (h : e < s) : date_range s e = [] := by
  unfold date_range
  have h0 : (e - s + 1).toNat = 0 := by omega
  rw [h0]
  rfl

/-! ### Structure of the merged frame -/

theorem merge_rows_nil_points (D : List Int) :
    merge_rows [] D = D.map fun d => (d, 0) := by
  induction D with
  | nil => rfl
  | cons d ds ih => simp [merge_rows, merge_row, col_matches, ih]

theorem preprocess_eq_merge_rows (P : List Point) (s e : Int) :
    preprocess_clicks_data P s e = merge_rows P (date_range s e) := by
  unfold preprocess_clicks_data
  cases P with
  | nil => simp [merge_rows_nil_points]
  | cons q P' => rfl

theorem merge_row_key {P : List Point} {x : Int} {r : Int × Nat}
    (h : r ∈ merge_row P x) : r.1 = x := by
  unfold merge_row at h
  cases hm : col_matches P x with
  | nil =>
    rw [hm] at h
    simp only [List.mem_singleton] at h
    rw [h]
  | cons p ps =>
    rw [hm] at h
    obtain ⟨a, _, rfl⟩ := List.mem_map.mp h
    rfl

theorem merge_rows_key {P : List Point} {D : List Int} {r : Int × Nat}
    (h : r ∈ merge_rows P D) : r.1 ∈ D := by
  induction D with
  | nil => cases h
  | cons x ds ih =>
    rcases List.mem_append.mp h with h1 | h1
    · exact List.mem_cons.mpr (Or.inl (merge_row_key h1))
    · exact List.mem_cons_of_mem _ (ih h1)

theorem filter_merge_rows_not_mem {P : List Point} {D : List Int} {d : Int}
    (h : d ∉ D) : (merge_rows P D).filter (fun r => r.1 == d) = [] := by
  rw [List.filter_eq_nil_iff]
  intro r hr
  simp only [beq_iff_eq]
  intro hk
  exact h (hk ▸ merge_rows_key hr)

theorem filter_merge_row_self {P : List Point} {d : Int} :
    (merge_row P d).filter (fun r => r.1 == d) = merge_row P d := by
  rw [List.filter_eq_self]
  intro r hr
  simp [merge_row_key hr]

theorem filter_merge_row_ne {P : List Point} {x d : Int} (hxd : x ≠ d) :
    (merge_row P x).filter (fun r => r.1 == d) = [] := by
  rw [List.filter_eq_nil_iff]
  intro r hr
  simp [merge_row_key hr, hxd]

theorem filter_merge_rows {P : List Point} {D : List Int} {d : Int}
    (hD : D.Nodup) (hd : d ∈ D) :
    (merge_rows P D).filter (fun r => r.1 == d) = merge_row P d := by
  induction D with
  | nil => cases hd
  | cons x ds ih =>
    rw [List.nodup_cons] at hD
    rw [show merge_rows P (x :: ds) = merge_row P x ++ merge_rows P ds from rfl,
      List.filter_append]
    rcases List.mem_cons.mp hd with rfl | hd'
    · rw [filter_merge_row_self, filter_merge_rows_not_mem hD.1, List.append_nil]
    · have hxd : x ≠ d := by
        rintro rfl
        exact hD.1 hd'
      rw [filter_merge_row_ne hxd, ih hD.2 hd', List.nil_append]

/-! ### Series structure under the at-most-one-point-per-date assumption -/

theorem col_matches_of_nodup {P : List Point}
    (hnd : P.Pairwise fun p q => p.t ≠ q.t) (d : Int) :
    col_matches P d = (P.find? fun p => p.t == d).toList := by
  induction P with
  | nil => rfl
  | cons q P' ih =>
    rw [List.pairwise_cons] at hnd
    unfold col_matches
    rw [List.filter_cons]
    by_cases h : q.t = d
    · have hfind : ((q :: P').find? fun p => p.t == d) = some q :=
        List.find?_cons_of_pos _ (by simp [h])
      have htail : P'.filter (fun p => p.t == d) = [] := by
        rw [List.filter_eq_nil_iff]
        intro p hp
        simp only [beq_iff_eq]
        exact fun hpd => hnd.1 p hp (h.trans hpd.symm)
      simp [h, hfind, htail]
    · have hfind : ((q :: P').find? fun p => p.t == d) = P'.find? fun p => p.t == d :=
        List.find?_cons_of_neg _ (by simp [h])
      have ihe := ih hnd.2
      unfold col_matches at ihe
      simp [h, hfind, ihe]

theorem merge_row_of_nodup {P : List Point}
    (hnd : P.Pairwise fun p q => p.t ≠ q.t) (d : Int) :
    merge_row P d = [(d, value_at P d)] := by
  unfold merge_row
  rw [col_matches_of_nodup hnd]
  cases h : P.find? fun p => p.t == d with
  | none => simp [value_at, h, Option.toList]
  | some p => simp [value_at, h, Option.toList]

theorem merge_rows_map_of_nodup {P : List Point}
    (hnd : P.Pairwise fun p q => p.t ≠ q.t) (D : List Int) :
    merge_rows P D = D.map fun d => (d, value_at P d) := by
  induction D with
  | nil => rfl
  | cons x ds ih =>
    rw [show merge_rows P (x :: ds) = merge_row P x ++ merge_rows P ds from rfl,
      merge_row_of_nodup hnd, ih, List.map_cons, List.singleton_append]

theorem lookup_map_key (D : List Int) (f : Int → Nat) (d : Int) (hd : d ∈ D) :
    ((D.map fun x => (x, f x)).lookup d) = some (f d) := by
  induction D with
  | nil => cases hd
  | cons x ds ih =>
    by_cases h : d = x
    · subst h
      simp [List.lookup]
    · have hd' : d ∈ ds := by
        rcases List.mem_cons.mp hd with h1 | h1
        · exact absurd h1 h
        · exact h1
      have hbeq : (d == x) = false := by simp [h]
      simp [List.lookup, hbeq, ih hd']

/-! ### Summation lemmas -/

/-- Sum of the `y` values of the points matching date `d` (the series
mass the merge places at left key `d`). -/
def col_sum (P : List Point) (d : Int) : Nat :=
  ((col_matches P d).map Point.y).sum

theorem sum_map_zero {α : Type} (D : List α) :
    (D.map fun _ => (0 : Nat)).sum = 0 := by
  induction D with
  | nil => rfl
  | cons a D ih => simp [ih]

theorem sum_map_add {α : Type} (D : List α) (f g : α → Nat) :
    (D.map fun x => f x + g x).sum = (D.map f).sum + (D.map g).sum := by
  induction D with
  | nil => rfl
  | cons a D ih =>
    simp only [List.map_cons, List.sum_cons, ih]
    omega

theorem sum_ite_of_not_mem {D : List Int} {t : Int} {y : Nat} (h : t ∉ D) :
    (D.map fun d => if t = d then y else 0).sum = 0 := by
  induction D with
  | nil => rfl
  | cons x ds ih =>
    have hx : t ≠ x := fun he => h (he ▸ List.mem_cons_self x ds)
    have hds : t ∉ ds := fun hm => h (List.mem_cons_of_mem _ hm)
    simp [hx, ih hds]

theorem sum_ite_mem (D : List Int) (hD : D.Nodup) (t : Int) (y : Nat) :
    (D.map fun d => if t = d then y else 0).sum = if t ∈ D then y else 0 := by
  induction D with
  | nil => rfl
  | cons x ds ih =>
    rw [List.nodup_cons] at hD
    by_cases h : t = x
    · subst h
      simp [sum_ite_of_not_mem hD.1]
    · have : (t ∈ x :: ds) = (t ∈ ds) := by
        simp [List.mem_cons, h]
      simp only [List.map_cons, List.sum_cons, if_neg h, Nat.zero_add, ih hD.2, this]

theorem col_sum_cons (q : Point) (P : List Point) (d : Int) :
    col_sum (q :: P) d = (if q.t = d then q.y else 0) + col_sum P d := by
  by_cases h : q.t = d <;>
    simp [col_sum, col_matches, List.filter_cons, h]

theorem sum_col (D : List Int) (hD : D.Nodup) (P : List Point) :
    (D.map fun d => col_sum P d).sum =
      ((P.filter fun p => decide (p.t ∈ D)).map Point.y).sum := by
  induction P with
  | nil =>
    simp only [List.filter_nil, List.map_nil, List.sum_nil]
    have : (D.map fun d => col_sum [] d) = D.map fun _ => 0 := by
      apply List.map_congr_left
      intro d _
      rfl
    rw [this, sum_map_zero]
  | cons q P' ih =>
    have hmap : (D.map fun d => col_sum (q :: P') d) =
        D.map fun d => (if q.t = d then q.y else 0) + col_sum P' d := by
      apply List.map_congr_left
      intro d _
      exact col_sum_cons q P' d
    rw [hmap, sum_map_add, sum_ite_mem D hD, ih, List.filter_cons]
    by_cases h : q.t ∈ D
    · simp [h]
    · simp [h]

theorem merge_row_total (P : List Point) (d : Int) :
    series_total (merge_row P d) = col_sum P d := by
  unfold merge_row col_sum
  cases h : col_matches P d with
  | nil => simp [series_total]
  | cons p ps =>
    unfold series_total
    rw [List.map_map]
    rfl

theorem merge_rows_total (P : List Point) (D : List Int) :
    series_total (merge_rows P D) = (D.map fun d => col_sum P d).sum := by
  induction D with
  | nil => rfl
  | cons x ds ih =>
    rw [show merge_rows P (x :: ds) = merge_row P x ++ merge_rows P ds from rfl]
    unfold series_total at *
    rw [List.map_append, List.sum_append, ih, List.map_cons, List.sum_cons,
      ← merge_row_total P x]
    rfl

/-! ### Claim theorems on the reprojection core -/

/-- Claim C1: for every window with `start ≤ end` and every point sequence
with at most one point per date, `preprocess_clicks_data` returns a
series whose value at each date `d` in the window equals the count of
the point whose date is `d`, and 0 when no such point exists; for the
empty point sequence it returns an all-zero dense series of length
`(end - start).days + 1`. -/
theorem preprocess_pointwise_correct (P : List Point) (s e : Int)
    (hnd : P.Pairwise fun p q => p.t ≠ q.t) (hse : s ≤ e) :
    (∀ d : Int, s ≤ d → d ≤ e →
        (preprocess_clicks_data P s e).lookup d = some (value_at P d)) ∧
    (preprocess_clicks_data ([] : List Point) s e).length = (e - s).toNat + 1 ∧
    ∀ r ∈ preprocess_clicks_data ([] : List Point) s e, r.2 = 0 := by
  refine ⟨?_, ?_, ?_⟩
  · intro d hs' he'
    rw [preprocess_eq_merge_rows, merge_rows_map_of_nodup hnd]
    exact lookup_map_key _ _ _ (mem_date_range.mpr ⟨hs', he'⟩)
  · have hl : (preprocess_clicks_data ([] : List Point) s e).length =
        (date_range s e).length := by
      rw [preprocess_eq_merge_rows, merge_rows_nil_points, List.length_map]
    rw [hl, date_range_length]
    omega
  · intro r hr
    rw [preprocess_eq_merge_rows, merge_rows_nil_points] at hr
    obtain ⟨d, _, rfl⟩ := List.mem_map.mp hr
    rfl

/-- Witness for `preprocess_pointwise_correct` at the spec's scenario
(points at days 0 and 2 of a 3-day window, probing the gap day 1). -/
theorem preprocess_pointwise_correct_witness :
    ([({ t := 0, y := 5 } : Point), { t := 2, y := 2 }].Pairwise
        fun p q => p.t ≠ q.t) ∧
    (0 : Int) ≤ 2 ∧
    (preprocess_clicks_data
        [({ t := 0, y := 5 } : Point), { t := 2, y := 2 }] 0 2).lookup 1 =
      some 0 :=
  ⟨by decide, by decide,
    (preprocess_pointwise_correct
        [({ t := 0, y := 5 } : Point), { t := 2, y := 2 }] 0 2
        (by decide) (by decide)).1 1 (by decide) (by decide)⟩

/-- Claim C2 counterexample: with two input points sharing a date, the left
merge emits one output row per duplicate, so the series over the
one-day window 0..0 has length 2, not `(end - start).days + 1 = 1`. -/
theorem preprocess_length_duplicates_cex :
    preprocess_clicks_data
        [({ t := 0, y := 1 } : Point), { t := 0, y := 2 }] 0 0 =
      [(0, 1), (0, 2)] ∧
    (preprocess_clicks_data
        [({ t := 0, y := 1 } : Point), { t := 0, y := 2 }] 0 0).length ≠
      ((0 : Int) - 0).toNat + 1 := by
  decide

/-- Claim C2 (amended): for windows with `start ≤ end` and point sets with at
most one point per date, the series has length `(end - start).days + 1`
and its date column is exactly the gap-free, duplicate-free, strictly
increasing calendar range. -/
theorem preprocess_dense_invariants (P : List Point) (s e : Int)
    (hnd : P.Pairwise fun p q => p.t ≠ q.t) (hse : s ≤ e) :
    (preprocess_clicks_data P s e).length = (e - s).toNat + 1 ∧
    (preprocess_clicks_data P s e).map Prod.fst = date_range s e ∧
    ((preprocess_clicks_data P s e).map Prod.fst).Pairwise (· < ·) := by
  have hm : (preprocess_clicks_data P s e).map Prod.fst = date_range s e := by
    rw [preprocess_eq_merge_rows, merge_rows_map_of_nodup hnd, List.map_map]
    exact List.map_id _
  refine ⟨?_, hm, ?_⟩
  · have hlen := congrArg List.length hm
    rw [List.length_map] at hlen
    rw [hlen, date_range_length]
    omega
  · rw [hm]
    exact date_range_pairwise s e

/-- Witness for `preprocess_dense_invariants`: a 3-day window with two
distinct-date points has a series of length 3. -/
theorem preprocess_dense_invariants_witness :
    ([({ t := 0, y := 5 } : Point), { t := 2, y := 2 }].Pairwise
        fun p q => p.t ≠ q.t) ∧
    (0 : Int) ≤ 2 ∧
    (preprocess_clicks_data
        [({ t := 0, y := 5 } : Point), { t := 2, y := 2 }] 0 2).length =
      ((2 : Int) - 0).toNat + 1 :=
  ⟨by decide, by decide,
    (preprocess_dense_invariants
        [({ t := 0, y := 5 } : Point), { t := 2, y := 2 }] 0 2
        (by decide) (by decide)).1⟩

/-- Claim C3: summing the dense series produced by `preprocess_clicks_data`
agrees with the main page's direct filter-and-sum computation (sum of
the counts of exactly the points whose date lies in the inclusive
window), for every window and every point set. -/
theorem series_total_eq_filtered_total (P : List Point) (s e : Int) :
    series_total (preprocess_clicks_data P s e) = filtered_total P s e := by
  rw [preprocess_eq_merge_rows, merge_rows_total,
    sum_col _ (date_range_nodup s e)]
  unfold filtered_total
  have hf : (P.filter fun p => decide (p.t ∈ date_range s e)) =
      P.filter fun p => decide (s ≤ p.t) && decide (p.t ≤ e) :=
    List.filter_congr fun p _ => by
      simp [mem_date_range]
  rw [hf]

/-- Claim C5 counterexample: with two points at the same date, the series is
not last-seen-wins — the merge keeps both rows, and a lookup at that
date sees the first point's count (1), not the last one's (2). -/
theorem preprocess_not_last_seen_cex :
    preprocess_clicks_data
        [({ t := 0, y := 1 } : Point), { t := 0, y := 2 }] 0 0 =
      [(0, 1), (0, 2)] ∧
    (preprocess_clicks_data
        [({ t := 0, y := 1 } : Point), { t := 0, y := 2 }] 0 0).lookup 0 ≠
      some 2 := by
  decide

/-- Claim C5 (amended): duplicate dates are tolerated (no failure), and the
tie-break is all-rows-kept, not last-seen-wins: at an in-window date
`d`, the output rows keyed `d` are one row per input point whose date
is `d`, each carrying that point's own count, in input order (a single
zero row when no point matches). -/
theorem preprocess_duplicate_rows (P : List Point) (s e d : Int)
    (hs : s ≤ d) (he : d ≤ e) :
    (preprocess_clicks_data P s e).filter (fun r => r.1 == d) =
      if (P.filter fun p => p.t == d) = [] then [(d, 0)]
      else (P.filter fun p => p.t == d).map fun p => (d, p.y) := by
  rw [preprocess_eq_merge_rows,
    filter_merge_rows (date_range_nodup s e) (mem_date_range.mpr ⟨hs, he⟩)]
  unfold merge_row col_matches
  cases h : P.filter fun p => p.t == d with
  | nil => simp
  | cons p ps => simp

/-- Witness for `preprocess_duplicate_rows` at two points sharing
date 0 inside the window 0..0: both rows are kept with their own
counts. -/
theorem preprocess_duplicate_rows_witness :
    (0 : Int) ≤ 0 ∧
    (preprocess_clicks_data
        [({ t := 0, y := 1 } : Point), { t := 0, y := 2 }] 0 0).filter
        (fun r => r.1 == 0) =
      (if ([({ t := 0, y := 1 } : Point), { t := 0, y := 2 }].filter
            fun p => p.t == 0) = [] then [((0 : Int), (0 : Nat))]
        else ([({ t := 0, y := 1 } : Point), { t := 0, y := 2 }].filter
            fun p => p.t == 0).map fun p => (0, p.y)) :=
  ⟨by decide,
    preprocess_duplicate_rows
      [({ t := 0, y := 1 } : Point), { t := 0, y := 2 }] 0 0 0
      (by decide) (by decide)⟩

/-- Claim C9: `preprocess_clicks_data` is a pure deterministic function — two
invocations with equal point sequences and equal window bounds return
equal series. -/
theorem preprocess_deterministic (P₁ P₂ : List Point) (s₁ s₂ e₁ e₂ : Int)
    (hP : P₁ = P₂) (hs : s₁ = s₂) (he : e₁ = e₂) :
    preprocess_clicks_data P₁ s₁ e₁ = preprocess_clicks_data P₂ s₂ e₂ := by
  subst hP
  subst hs
  subst he
  rfl

/-- Witness for `preprocess_deterministic` at a concrete point list and
window. -/
theorem preprocess_deterministic_witness :
    ([({ t := 0, y := 5 } : Point)] = [({ t := 0, y := 5 } : Point)]) ∧
    ((0 : Int) = 0) ∧ ((1 : Int) = 1) ∧
    preprocess_clicks_data [({ t := 0, y := 5 } : Point)] 0 1 =
      preprocess_clicks_data [({ t := 0, y := 5 } : Point)] 0 1 :=
  ⟨rfl, rfl, rfl,
    preprocess_deterministic
      [({ t := 0, y := 5 } : Point)] [({ t := 0, y := 5 } : Point)]
      0 0 1 1 rfl rfl rfl⟩

/-- Claim C10: with `start` strictly after `end` the function raises nothing
and returns an empty series, on the non-empty-input branch (arbitrary
`P`) as well as on the empty-input branch (`P = []`). -/
theorem preprocess_inverted_window_empty (P : List Point) (s e : Int)
    (h : e < s) :
    preprocess_clicks_data P s e = [] ∧
    preprocess_clicks_data ([] : List Point) s e = [] := by
  have hD := date_range_empty_of_lt h
  constructor
  · rw [preprocess_eq_merge_rows, hD]
    rfl
  · rw [preprocess_eq_merge_rows, hD]
    rfl

/-- Witness for `preprocess_inverted_window_empty` at the inverted
window 1..0 with a non-empty point list. -/
theorem preprocess_inverted_window_empty_witness :
    (0 : Int) < 1 ∧
    (preprocess_clicks_data [({ t := 0, y := 5 } : Point)] 1 0 = [] ∧
      preprocess_clicks_data ([] : List Point) 1 0 = []) :=
  ⟨by decide,
    preprocess_inverted_window_empty [({ t := 0, y := 5 } : Point)] 1 0
      (by decide)⟩

/-! ### Date-string parsing -/

/-- Split a character list on the dash character (the shape expected by
the `"%Y-%m-%d"` format). -/
def splitDash : List Char → List (List Char)
  | [] => [[]]
  | c :: rest =>
    if c = '-' then [] :: splitDash rest
    else
      match splitDash rest with
      | [] => [[c]]
      | g :: gs => (c :: g) :: gs

/-- Decimal value of a digit list. -/
def digitsVal (cs : List Char) : Nat :=
  cs.foldl (fun a c => a * 10 + (c.toNat - 48)) 0

/-- Parse a non-empty all-digit character list; `none` otherwise. -/
def digitsToNat? (cs : List Char) : Option Nat :=
  if !cs.isEmpty && cs.all Char.isDigit then some (digitsVal cs) else none

/-- Gregorian leap-year test. -/
def isLeap (y : Nat) : Bool :=
  y % 4 == 0 && (y % 100 != 0 || y % 400 == 0)

/-- Number of days in month `m` of year `y`. -/
def daysInMonth (y m : Nat) : Nat :=
  if m = 2 then (if isLeap y then 29 else 28)
  else if m = 4 ∨ m = 6 ∨ m = 9 ∨ m = 11 then 30
  else 31

/-- Civil-calendar day number of `y-m-d` (days-from-civil algorithm),
the ordinal the embedding uses for parsed dates. -/
def daysFromCivil (y m d : Nat) : Nat :=
  let y2 := if m ≤ 2 then y - 1 else y
  let era := y2 / 400
  let yoe := y2 % 400
  let mp := (m + 9) % 12
  let doy := (153 * mp + 2) / 5 + d - 1
  let doe := yoe * 365 + yoe / 4 - yoe / 100 + doy
  era * 146097 + doe

/-- Models `datetime.strptime(s, "%Y-%m-%d").date()`, the main page's
per-point parser (src/linkly-app.py line 98): CPython's `%Y-%m-%d`
accepts exactly four year digits, a one-or-two-digit month 1..12 and a
one-or-two-digit day 1..31, then the `date` constructor validates the
day against the month length; day ordinal on success, `none` where the
library raises (wrong shape, non-digit components, wrong digit counts,
or an invalid calendar date). -/
def strptime (s : String) : Option Int :=
  match splitDash s.data with
  | [ys, ms, ds] => do
    let y ← digitsToNat? ys
    let m ← digitsToNat? ms
    let d ← digitsToNat? ds
    if ys.length = 4 ∧ ms.length ≤ 2 ∧ ds.length ≤ 2 ∧
        1 ≤ y ∧ 1 ≤ m ∧ m ≤ 12 ∧ 1 ≤ d ∧ d ≤ daysInMonth y m then
      some ((daysFromCivil y m d : Nat) : Int)
    else none
  | _ => none

/-- Parse one raw provider point (date string plus count) with a given
date-string parser. -/
def parse_point (parse : String → Option Int) (p : RawPoint) : Option Point :=
  (parse p.t).map fun d => { t := d, y := p.y }

/-- Parse a whole raw payload with a given date-string parser; fails on
the first unparseable date, exactly as the vectorised
`pd.to_datetime(clicks_df["t"])` and the per-point `datetime.strptime`
calls raise on the first bad value. -/
def parse_points (parse : String → Option Int) :
    List RawPoint → Option (List Point)
  | [] => some []
  | p :: ps => do
    let q ← parse_point parse p
    let qs ← parse_points parse ps
    pure (q :: qs)

/-- Models the main page's filter-and-sum (src/linkly-app.py lines
96-100) on the raw stored payload: every point's date string goes
through `strptime`, so one malformed date makes the whole computation
raise (`none`). -/
def filtered_total_raw (P : List RawPoint) (s e : Int) : Option Nat :=
  (parse_points strptime P).map fun ps => filtered_total ps s e

/-- Models `preprocess_clicks_data` on the raw stored payload
(src/linkly-app.py lines 142-170): empty input short-circuits to the
zero series before any parsing; otherwise `pd.to_datetime` parses every
date string (raising on a malformed one) and the left merge follows.
`pd.to_datetime`'s accepted format set is wider than `%Y-%m-%d` and
depends on the pandas version, so it enters the model as the abstract
per-value parser `to_datetime`; the theorems below assume only where it
fails, never what it accepts. -/
def preprocess_raw (to_datetime : String → Option Int)
    (P : List RawPoint) (s e : Int) : Option (List (Int × Nat)) :=
  if P.isEmpty then some ((date_range s e).map fun d => (d, 0))
  else (parse_points to_datetime P).map fun ps => merge_rows ps (date_range s e)

/-! ### Session state and provider calls -/

/-- Models `fetch_tracked_links` (src/linkly-app.py lines 16-28): the
provider response, with `none` standing for a raised
`requests.exceptions.RequestException`; the `except` arm turns a
failure into the empty list. -/
def fetch_tracked_links (resp : Option (List Link)) : List Link :=
  resp.getD []

/-- Models `fetch_clicks_for_link` (src/linkly-app.py lines 31-47):
a failed per-link traffic request becomes the empty point list. -/
def fetch_clicks_for_link (resp : Option (List RawPoint)) : List RawPoint :=
  resp.getD []

/-- The fetch window's start used by the session cache population:
`datetime.now() - timedelta(days=365)` (src/linkly-app.py line 61). -/
def history_fetch_start (today : Int) : Int :=
  today - 365

/-- The fetch window's end used by the session cache population:
`datetime.now()` (src/linkly-app.py line 62). -/
def history_fetch_end (today : Int) : Int :=
  today

/-- Models `initialize_session_state` (src/linkly-app.py lines 50-63):
fetch the tracked links once, then loop over them populating
`analytics_data[link_id]` with that link's traffic over the fixed
lookback window; `traffic` is the provider keyed by link id and window
bounds, `none` again standing for a raised request exception. -/
def init_session_state (today : Int) (linksResp : Option (List Link))
    (traffic : Nat → Int → Int → Option (List RawPoint)) :
    List Link × List (Nat × List RawPoint) :=
  let links := fetch_tracked_links linksResp
  (links, links.map fun l =>
    (l.id, fetch_clicks_for_link
      (traffic l.id (history_fetch_start today) (history_fetch_end today))))

/-- Models the table construction of `render_main_page`
(src/linkly-app.py lines 88-109): one `(name, clicks in window,
lifetime clicks)` row per tracked link, in order; `none` when some
stored date string fails to parse (the `strptime` call raises). -/
def render_main_table : List Link → (Nat → List RawPoint) → Int → Int →
    Option (List (String × Nat × Nat))
  | [], _, _, _ => some []
  | l :: ls, analytics, s, e => do
    let c ← filtered_total_raw (analytics l.id) s e
    let rest ← render_main_table ls analytics s e
    pure ((l.name, c, l.clicks_count) :: rest)

/-! ### Claim theorems on error handling and the session cache -/

/-- Claim C4: provider-call failures are caught at the point of the
call and converted to an empty result — a failed link-list fetch yields
the empty link sequence, a failed per-link traffic fetch yields the
empty point sequence, and in the cache population loop a per-link
failure leaves an empty entry for that link while the loop still
produces one entry per tracked link. -/
theorem provider_failure_isolated (today : Int)
    (linksResp : Option (List Link))
    (traffic : Nat → Int → Int → Option (List RawPoint)) :
    fetch_tracked_links none = [] ∧
    fetch_clicks_for_link none = [] ∧
    (init_session_state today linksResp traffic).2.length =
      (init_session_state today linksResp traffic).1.length ∧
    ∀ l ∈ (init_session_state today linksResp traffic).1,
      traffic l.id (history_fetch_start today) (history_fetch_end today) =
          none →
        (l.id, ([] : List RawPoint)) ∈
          (init_session_state today linksResp traffic).2 := by
  refine ⟨rfl, rfl, List.length_map _ _, ?_⟩
  intro l hl hfail
  have hrow : (l.id, ([] : List RawPoint)) =
      (l.id, fetch_clicks_for_link
        (traffic l.id (history_fetch_start today) (history_fetch_end today))) := by
    rw [hfail]
    rfl
  rw [hrow]
  exact List.mem_map_of_mem _ hl

/-- Witness for `provider_failure_isolated`: one tracked link whose
traffic request fails still gets a (link id, empty list) cache entry. -/
theorem provider_failure_isolated_witness :
    ({ id := 1, name := "a", url := "u", clicks_count := 5 } : Link) ∈
      (init_session_state 0
        (some [({ id := 1, name := "a", url := "u", clicks_count := 5 } : Link)])
        (fun _ _ _ => none)).1 ∧
    ((1 : Nat), ([] : List RawPoint)) ∈
      (init_session_state 0
        (some [({ id := 1, name := "a", url := "u", clicks_count := 5 } : Link)])
        (fun _ _ _ => none)).2 :=
  ⟨List.mem_singleton.mpr rfl,
    (provider_failure_isolated 0
        (some [({ id := 1, name := "a", url := "u", clicks_count := 5 } : Link)])
        (fun _ _ _ => none)).2.2.2
      { id := 1, name := "a", url := "u", clicks_count := 5 }
      (List.mem_singleton.mpr rfl) rfl⟩

/-- Claim C6 counterexample: the session cache's fetch window starts
exactly 365 days before today — not strictly more than one year, so the
lookback is not multi-year. -/
theorem history_window_not_multiyear_cex :
    history_fetch_end 0 - history_fetch_start 0 = 365 ∧
    ¬(365 < history_fetch_end 0 - history_fetch_start 0) := by
  decide

/-- Claim C6 (amended): on first load the session cache fetches each
link's traffic over a fixed window whose start is exactly 365 days
before today (a one-non-leap-year lookback, not multi-year), ending at
today; the population loop hands exactly these bounds to the provider
for every link. -/
theorem history_window_is_365_days (today : Int)
    (linksResp : Option (List Link))
    (traffic : Nat → Int → Int → Option (List RawPoint)) :
    history_fetch_end today - history_fetch_start today = 365 ∧
    (init_session_state today linksResp traffic).2 =
      (fetch_tracked_links linksResp).map fun l =>
        (l.id, fetch_clicks_for_link (traffic l.id (today - 365) today)) := by
  constructor
  · unfold history_fetch_end history_fetch_start
    omega
  · rfl

/-- Claim C7 counterexample: with an empty link list from the provider
the rendered table has zero rows — there is no aggregate Total row, so
the table's length is 0, not 1. -/
theorem render_table_no_total_row_cex :
    render_main_table [] (fun _ => []) 0 0 =
      some ([] : List (String × Nat × Nat)) ∧
    (render_main_table [] (fun _ => []) 0 0).map List.length ≠ some 1 := by
  decide

/-- Claim C7 (amended): whenever the table renders, it contains exactly
one row per tracked link and no aggregate row — its length equals the
number of links (zero rows for the empty link list). -/
theorem render_table_one_row_per_link (links : List Link)
    (analytics : Nat → List RawPoint) (s e : Int)
    (rows : List (String × Nat × Nat))
    (h : render_main_table links analytics s e = some rows) :
    rows.length = links.length := by
  induction links generalizing rows with
  | nil =>
    simp only [render_main_table, Option.some_inj] at h
    rw [← h]
    rfl
  | cons l ls ih =>
    simp only [render_main_table] at h
    cases hc : filtered_total_raw (analytics l.id) s e with
    | none => simp [hc] at h
    | some c =>
      cases hr : render_main_table ls analytics s e with
      | none => simp [hc, hr] at h
      | some rest =>
        rw [hc, hr] at h
        have hrows : some ((l.name, c, l.clicks_count) :: rest) = some rows := h
        obtain rfl : ((l.name, c, l.clicks_count) :: rest) = rows :=
          Option.some_inj.mp hrows
        simp [ih rest hr]

/-- Witness for `render_table_one_row_per_link`: one link with an empty
stored payload renders as exactly one row. -/
theorem render_table_one_row_per_link_witness :
    render_main_table
        [({ id := 1, name := "a", url := "u", clicks_count := 5 } : Link)]
        (fun _ => []) 0 0 =
      some [("a", 0, 5)] ∧
    ([(("a" : String), (0 : Nat), (5 : Nat))]).length = 1 :=
  ⟨by rfl,
    render_table_one_row_per_link
      [({ id := 1, name := "a", url := "u", clicks_count := 5 } : Link)]
      (fun _ => []) 0 0 [("a", 0, 5)] (by rfl)⟩

/-- A payload containing a point whose date does not parse (under any
given parser) makes the whole payload parse fail (the first bad value
raises). -/
theorem parse_points_none (parse : String → Option Int)
    {P : List RawPoint} {p : RawPoint}
    (hp : p ∈ P) (h : parse p.t = none) : parse_points parse P = none := by
  have hpp : parse_point parse p = none := by
    unfold parse_point
    rw [h]
    rfl
  induction P with
  | nil => cases hp
  | cons q Ps ih =>
    rcases List.mem_cons.mp hp with rfl | hp'
    · simp [parse_points, hpp]
    · cases hq : parse_point parse q with
      | none => simp [parse_points, hq]
      | some v => simp [parse_points, hq, ih hp']

/-- Claim C8 counterexample: a payload whose first point carries the
dateless string `"oops"` makes both the windowed click total and the
dense series computation abort (`none`) — the offending point is not
dropped and the remaining well-formed point produces nothing. For the
series path the abstract `to_datetime` is instantiated with the strict
parser, which agrees with pandas on both strings involved: every
format of `pd.to_datetime` rejects `"oops"` and accepts
`"2024-01-02"`. -/
theorem malformed_date_aborts_cex :
    filtered_total_raw
        [({ t := "oops", y := 5 } : RawPoint), { t := "2024-01-02", y := 3 }]
        0 999999 = none ∧
    preprocess_raw strptime
        [({ t := "oops", y := 5 } : RawPoint), { t := "2024-01-02", y := 3 }]
        0 999999 = none := by
  decide

/-- Claim C8 (amended): a provider payload containing a point whose
date string the respective library parser rejects is not tolerated —
the windowed click total (whose `datetime.strptime` call rejects the
string) and the dense series computation (whose `pd.to_datetime`,
however permissive, rejects the string) abort with a parse failure
instead of dropping the offending point. -/
theorem malformed_date_aborts (to_datetime : String → Option Int)
    (P : List RawPoint) (s e : Int) (p : RawPoint) (hp : p ∈ P)
    (hbad1 : strptime p.t = none) (hbad2 : to_datetime p.t = none) :
    filtered_total_raw P s e = none ∧
    preprocess_raw to_datetime P s e = none := by
  have hne : P.isEmpty = false := by
    cases P with
    | nil => cases hp
    | cons q Ps => rfl
  constructor
  · unfold filtered_total_raw
    rw [parse_points_none strptime hp hbad1]
    rfl
  · unfold preprocess_raw
    rw [hne, parse_points_none to_datetime hp hbad2]
    rfl

/-- Witness for `malformed_date_aborts` at a two-point payload whose
first date string is not a date, with the abstract `to_datetime`
instantiated by the strict parser (which, like every pandas format,
rejects `"oops"`). -/
theorem malformed_date_aborts_witness :
    ({ t := "oops", y := 5 } : RawPoint) ∈
      [({ t := "oops", y := 5 } : RawPoint), { t := "2024-01-02", y := 3 }] ∧
    strptime "oops" = none ∧
    (filtered_total_raw
        [({ t := "oops", y := 5 } : RawPoint), { t := "2024-01-02", y := 3 }]
        0 10 = none ∧
      preprocess_raw strptime
        [({ t := "oops", y := 5 } : RawPoint), { t := "2024-01-02", y := 3 }]
        0 10 = none) :=
  ⟨by decide, by rfl,
    malformed_date_aborts strptime
      [({ t := "oops", y := 5 } : RawPoint), { t := "2024-01-02", y := 3 }]
      0 10 { t := "oops", y := 5 } (by decide) (by rfl) (by rfl)⟩

end Linkly
